import Mathlib

/-!
Shallow embedding of `src/cli.py`, the repo-local helper CLI of n00plicate.

The program has two subcommands:
* `packages` — lists immediate subdirectories of `<root>/packages`;
* `status`   — runs `git status -sb` in the repository root with `check=True`.

The filesystem object at `<root>/packages` is modelled as an `Option FSNode`
(`none` when the path does not exist).  The behaviour of the external git
process is an input of the model (`GitOutcome`).  Python's console is modelled
as a pair of strings (stdout, stderr); `print(s)` appends `s ++ "\n"` to
stdout.  An uncaught Python exception makes CPython exit with status 1;
`argparse` errors call `sys.exit(2)` after printing usage plus a diagnostic to
stderr.
-/

namespace Cli

/-- What `Path.is_dir()` reports for a directory entry (symlink resolution is
folded into the reported kind). -/
inductive EntryKind
  | dir
  | file
deriving DecidableEq, Repr

/-- One immediate child of the `packages` directory, as yielded by
`pkgs_dir.iterdir()`: a name and whether `is_dir()` holds of it. -/
structure FSEntry where
  name : String
  kind : EntryKind
deriving DecidableEq, Repr

/-- The filesystem object found at `<root>/packages` when the path exists:
either a directory with its children (in enumeration order), or a
non-directory object such as a regular file. -/
inductive FSNode
  | dir (entries : List FSEntry)
  | file
deriving DecidableEq, Repr

/-- The Python exceptions the program can let escape uncaught. -/
inductive PyError
  | notADirectoryError
  | calledProcessError (returncode : Nat)
  | fileNotFoundError
deriving DecidableEq, Repr

/-- The comparison `sorted` uses on the children of `pkgs_dir`: `pathlib`
compares paths by their string form, and since all entries share the parent
`<root>/packages/`, this is codepoint-lexicographic comparison of the names. -/
def entryLe (a b : FSEntry) : Bool :=
  decide (a.name ≤ b.name)

/-- `print(s)` appends `s` and a newline to stdout; a run of prints produces
the concatenation of the printed lines. -/
def linesOut (lines : List String) : String :=
  String.join (lines.map (fun l => l ++ "\n"))

/-- `list_packages` from `src/cli.py`, returning the lines it prints, or the
exception it raises.  If `pkgs_dir.exists()` is false it prints
`No packages directory found.` and returns; otherwise it iterates
`sorted(pkgs_dir.iterdir())` and prints `- <name>` for each child whose
`is_dir()` holds.  Calling `iterdir()` on a non-directory raises
`NotADirectoryError`. -/
def list_packages (pkgs : Option FSNode) : Except PyError (List String) :=
  match pkgs with
  | none => .ok ["No packages directory found."]
  | some .file => .error .notADirectoryError
  | some (.dir entries) =>
      .ok (((entries.mergeSort entryLe).filter
              (fun e => e.kind == EntryKind.dir)).map
            (fun e => "- " ++ e.name))

/-- The filesystem operations `list_packages` performs, in order; `write`
stands for any mutating filesystem operation (the function performs none). -/
inductive FSOp
  | queryExists
  | iterdir
  | isDirQuery
  | write
deriving DecidableEq, Repr

/-- The trace of filesystem operations of `list_packages` on each input shape:
one `exists()` probe, then (when the path exists) one `iterdir()`, then one
`is_dir()` probe per enumerated child.  No mutating operation occurs in the
source. -/
def list_packages_fsTrace (pkgs : Option FSNode) : List FSOp :=
  match pkgs with
  | none => [.queryExists]
  | some .file => [.queryExists, .iterdir]
  | some (.dir entries) =>
      [.queryExists, .iterdir] ++ entries.map (fun _ => FSOp.isDirQuery)

/-- The ways `argparse` can reject the argument list. -/
inductive ArgError
  | missingCommand
  | invalidChoice (token : String)
  | unrecognizedArgs
deriving DecidableEq, Repr

/-- The usage line `argparse` derives from the parser configuration. -/
def usageMsg : String :=
  "usage: cli.py [-h] \x7bpackages,status\x7d ...\n"

/-- The diagnostic `argparse` writes to stderr before `sys.exit(2)`. -/
def argErrorMsg : ArgError → String
  | .missingCommand =>
      usageMsg ++ "cli.py: error: the following arguments are required: command\n"
  | .invalidChoice t =>
      usageMsg ++ "cli.py: error: argument command: invalid choice: " ++ t ++ "\n"
  | .unrecognizedArgs =>
      usageMsg ++ "cli.py: error: unrecognized arguments\n"

/-- `parser.parse_args()` for the parser built in `main`: a subparser set with
`dest="command"` and `required=True`, whose choices are `packages` and
`status`, neither taking further arguments.  Modelled for argument lists that
contain no option flags (`-h` is not modelled): an empty list violates the
required-subcommand constraint, an unknown first token is an invalid choice,
and trailing tokens after a valid subcommand are unrecognized arguments.  All
three make `argparse` print usage plus a diagnostic to stderr and exit 2. -/
def parse_args (argv : List String) : Except ArgError String :=
  match argv with
  | [] => .error .missingCommand
  | t :: rest =>
    if t = "packages" ∨ t = "status" then
      if rest = [] then .ok t else .error .unrecognizedArgs
    else .error (.invalidChoice t)

/-- What running `git status -sb` in the repository root would do: either the
process launches and terminates with an exit code, having written `out` and
`err` directly to the inherited stdout/stderr, or the executable cannot be
launched and `subprocess.run` raises `FileNotFoundError`. -/
inductive GitOutcome
  | runs (code : Nat) (out err : String)
  | launchFailure
deriving DecidableEq, Repr

/-- The environment a single invocation of the tool observes: the state of
`<root>/packages` and the behaviour of the external git process. -/
structure World where
  packagesNode : Option FSNode
  git : GitOutcome
deriving DecidableEq, Repr

/-- The console text produced by one invocation. -/
structure ConsoleOut where
  stdout : String
  stderr : String
deriving DecidableEq, Repr

/-- How an invocation of the tool ends.  `exits c` is a normal return of `c`
from `main` (the process then exits with status `c` via
`raise SystemExit(main())`); `argparseExit` is the `SystemExit(2)` raised by
`argparse` inside `parse_args`; `raises` is an uncaught Python exception
propagating out of `main`, which makes CPython exit with status 1. -/
inductive Outcome
  | exits (code : Nat) (out : ConsoleOut)
  | argparseExit (code : Nat) (out : ConsoleOut)
  | raises (e : PyError) (out : ConsoleOut)
deriving DecidableEq, Repr

/-- The help text of `parser.print_help()` (reachable only from the fallback
branch of `main`, which is dead code; content abridged). -/
def helpText : String :=
  usageMsg ++ "\nn00plicate helper CLI\n"

/-- `main` from `src/cli.py`.  Parses the arguments; on `packages` runs
`list_packages`; on `status` runs `subprocess.run(["git", "status", "-sb"],
check=True, cwd=REPO_ROOT)`, which raises `CalledProcessError` on a non-zero
exit code and `FileNotFoundError` when git cannot be launched; the final
`else` branch prints help and returns 1; otherwise `main` returns 0. -/
def main (w : World) (argv : List String) : Outcome :=
  match parse_args argv with
  | .error e => .argparseExit 2 ⟨"", argErrorMsg e⟩
  | .ok cmd =>
    if cmd = "packages" then
      match list_packages w.packagesNode with
      | .error e => .raises e ⟨"", ""⟩
      | .ok lines => .exits 0 ⟨linesOut lines, ""⟩
    else if cmd = "status" then
      match w.git with
      | .launchFailure => .raises .fileNotFoundError ⟨"", ""⟩
      | .runs code out err =>
        if code = 0 then .exits 0 ⟨out, err⟩
        else .raises (.calledProcessError code) ⟨out, err⟩
    else
      .exits 1 ⟨helpText, ""⟩

/-- The exit status of the whole process for each outcome: a returned code is
passed to `SystemExit`; an uncaught exception exits with status 1. -/
def exitCode : Outcome → Nat
  | .exits c _ => c
  | .argparseExit c _ => c
  | .raises _ _ => 1

/-- The text an outcome leaves on stdout. -/
def stdoutOf : Outcome → String
  | .exits _ o => o.stdout
  | .argparseExit _ o => o.stdout
  | .raises _ o => o.stdout

/-- `entryLe` is transitive (comparison of names in a linear order). -/
theorem entryLe_trans :
    ∀ a b c : FSEntry, entryLe a b = true → entryLe b c = true → entryLe a c = true := by
  intro a b c hab hbc
  simp only [entryLe, decide_eq_true_eq] at *
  exact le_trans hab hbc

/-- `entryLe` is total. -/
theorem entryLe_total : ∀ a b : FSEntry, (entryLe a b || entryLe b a) = true := by
  intro a b
  simp only [entryLe, Bool.or_eq_true, decide_eq_true_eq]
  exact le_total a.name b.name

/-- Unfolding of `main` on the `packages` subcommand: the dispatcher reaches
`list_packages` and returns 0 on its normal completion. -/
theorem main_packages_eq (w : World) :
    main w ["packages"] =
      match list_packages w.packagesNode with
      | .error e => .raises e ⟨"", ""⟩
      | .ok lines => .exits 0 ⟨linesOut lines, ""⟩ := rfl

/-- Sanity check (spec testable property 1): with children `b`, `a` and a
non-directory `notadir`, the listing is `- a` then `- b`. -/
theorem sanity_sorted_listing :
    list_packages (some (.dir [⟨"b", .dir⟩, ⟨"notadir", .file⟩, ⟨"a", .dir⟩])) =
      .ok ["- a", "- b"] := by
  simp +decide [list_packages, List.mergeSort, List.merge, entryLe,
    String.le_iff_toList_le]

/-- C4: when `<root>/packages` does not exist, the `packages` subcommand
prints exactly `No packages directory found.` (one line) and the tool exits
with status 0; this path raises nothing. -/
theorem c4_missing_packages_dir (w : World) (h : w.packagesNode = none) :
    main w ["packages"] = .exits 0 ⟨"No packages directory found.\n", ""⟩ ∧
    exitCode (main w ["packages"]) = 0 := by
  obtain ⟨pn, g⟩ := w
  cases h
  exact ⟨rfl, rfl⟩

/-- C4 witness: concrete world with no `packages` path. -/
theorem c4_witness :
    (World.mk none (.runs 0 "" "")).packagesNode = none ∧
    (main ⟨none, .runs 0 "" ""⟩ ["packages"] =
        .exits 0 ⟨"No packages directory found.\n", ""⟩ ∧
      exitCode (main ⟨none, .runs 0 "" ""⟩ ["packages"]) = 0) :=
  ⟨rfl, c4_missing_packages_dir ⟨none, .runs 0 "" ""⟩ rfl⟩

/-- C6: when `<root>/packages` exists and is an empty directory, the
`packages` subcommand prints nothing and the tool exits with status 0. -/
theorem c6_empty_packages_dir (w : World) (h : w.packagesNode = some (.dir [])) :
    main w ["packages"] = .exits 0 ⟨"", ""⟩ ∧
    exitCode (main w ["packages"]) = 0 := by
  obtain ⟨pn, g⟩ := w
  cases h
  have hlp : list_packages (some (.dir [])) = .ok [] := by
    simp [list_packages]
  have hm : main ⟨some (.dir []), g⟩ ["packages"] = .exits 0 ⟨"", ""⟩ := by
    rw [main_packages_eq]
    simp [hlp, show linesOut [] = "" from rfl]
  exact ⟨hm, by rw [hm]; rfl⟩

/-- C6 witness: concrete world with an empty `packages` directory. -/
theorem c6_witness :
    (World.mk (some (.dir [])) (.runs 0 "" "")).packagesNode = some (.dir []) ∧
    (main ⟨some (.dir []), .runs 0 "" ""⟩ ["packages"] = .exits 0 ⟨"", ""⟩ ∧
      exitCode (main ⟨some (.dir []), .runs 0 "" ""⟩ ["packages"]) = 0) :=
  ⟨rfl, c6_empty_packages_dir ⟨some (.dir []), .runs 0 "" ""⟩ rfl⟩

/-- C9: when `<root>/packages` exists but is not a directory, `exists()` is
true, so the missing-directory message is not printed, and `iterdir()` raises
`NotADirectoryError`, which escapes `main` uncaught: the tool does not exit 0
(CPython exits 1). -/
theorem c9_packages_path_is_file (w : World) (h : w.packagesNode = some .file) :
    main w ["packages"] = .raises .notADirectoryError ⟨"", ""⟩ ∧
    exitCode (main w ["packages"]) ≠ 0 := by
  obtain ⟨pn, g⟩ := w
  cases h
  exact ⟨rfl, Nat.one_ne_zero⟩

/-- C9 witness: concrete world where the `packages` path is a regular file. -/
theorem c9_witness :
    (World.mk (some .file) (.runs 0 "" "")).packagesNode = some .file ∧
    (main ⟨some .file, .runs 0 "" ""⟩ ["packages"] =
        .raises .notADirectoryError ⟨"", ""⟩ ∧
      exitCode (main ⟨some .file, .runs 0 "" ""⟩ ["packages"]) ≠ 0) :=
  ⟨rfl, c9_packages_path_is_file ⟨some .file, .runs 0 "" ""⟩ rfl⟩

/-- C5: when the git process exits 0 having written `T` to stdout and `E` to
stderr, the tool's console carries exactly `T` and `E` unmodified and the tool
exits with status 0. -/
theorem c5_status_passthrough (w : World) (T E : String) (h : w.git = .runs 0 T E) :
    main w ["status"] = .exits 0 ⟨T, E⟩ ∧
    exitCode (main w ["status"]) = 0 := by
  obtain ⟨pn, g⟩ := w
  cases h
  exact ⟨rfl, rfl⟩

/-- C5 witness: concrete passthrough of `## main` on stdout. -/
theorem c5_witness :
    (World.mk none (.runs 0 "## main\n" "")).git = .runs 0 "## main\n" "" ∧
    (main ⟨none, .runs 0 "## main\n" ""⟩ ["status"] =
        .exits 0 ⟨"## main\n", ""⟩ ∧
      exitCode (main ⟨none, .runs 0 "## main\n" ""⟩ ["status"]) = 0) :=
  ⟨rfl, c5_status_passthrough ⟨none, .runs 0 "## main\n" ""⟩ "## main\n" "" rfl⟩

/-- C3: when the git process exits non-zero, `check=True` raises
`CalledProcessError`; when the executable cannot be launched, `subprocess.run`
raises `FileNotFoundError`.  Either way the exception escapes `main` uncaught
— the failure is surfaced, not swallowed — and the tool's exit status is
non-zero. -/
theorem c3_status_failure_propagates (w : World)
    (h : w.git = .launchFailure ∨ ∃ n out err, w.git = .runs n out err ∧ n ≠ 0) :
    exitCode (main w ["status"]) ≠ 0 ∧
    ∃ e cOut, main w ["status"] = .raises e cOut := by
  obtain ⟨pn, g⟩ := w
  rcases h with h | ⟨n, out, err, h, hn⟩
  · cases h
    exact ⟨Nat.one_ne_zero, .fileNotFoundError, ⟨"", ""⟩, rfl⟩
  · cases h
    have hmain : main ⟨pn, .runs n out err⟩ ["status"] =
        if n = 0 then .exits 0 ⟨out, err⟩
        else .raises (.calledProcessError n) ⟨out, err⟩ := rfl
    rw [hmain, if_neg hn]
    exact ⟨Nat.one_ne_zero, .calledProcessError n, ⟨out, err⟩, rfl⟩

/-- C3 witness: git exits 1; the tool exits non-zero via an uncaught
`CalledProcessError`. -/
theorem c3_witness :
    ((World.mk none (.runs 1 "" "fatal\n")).git = .launchFailure ∨
      ∃ n out err, (World.mk none (.runs 1 "" "fatal\n")).git = .runs n out err ∧ n ≠ 0) ∧
    (exitCode (main ⟨none, .runs 1 "" "fatal\n"⟩ ["status"]) ≠ 0 ∧
      ∃ e cOut, main ⟨none, .runs 1 "" "fatal\n"⟩ ["status"] = .raises e cOut) :=
  ⟨Or.inr ⟨1, "", "fatal\n", rfl, Nat.one_ne_zero⟩,
    c3_status_failure_propagates ⟨none, .runs 1 "" "fatal\n"⟩
      (Or.inr ⟨1, "", "fatal\n", rfl, Nat.one_ne_zero⟩)⟩

/-- The diagnostic for an invalid choice is never the empty string. -/
theorem invalidChoice_msg_ne_empty (t : String) : argErrorMsg (.invalidChoice t) ≠ "" := by
  intro hempty
  have hlen := congrArg String.length hempty
  simp only [argErrorMsg, String.length_append,
    show ("\n" : String).length = 1 from rfl,
    show ("" : String).length = 0 from rfl] at hlen
  omega

/-- C1 counterexample: on the unrecognized token `frobnicate`, `argparse`
exits with status 2 (not 1) and writes its diagnostic to stderr, leaving
stdout empty (no help message on standard output). -/
theorem c1_counterexample :
    main ⟨none, .runs 0 "" ""⟩ ["frobnicate"] =
      .argparseExit 2 ⟨"", argErrorMsg (.invalidChoice "frobnicate")⟩ ∧
    exitCode (main ⟨none, .runs 0 "" ""⟩ ["frobnicate"]) ≠ 1 ∧
    stdoutOf (main ⟨none, .runs 0 "" ""⟩ ["frobnicate"]) = "" :=
  ⟨rfl, by decide, rfl⟩

/-- C1 (amended): for every invocation with no subcommand or an unrecognized
first token, `argparse` prints a non-empty usage diagnostic to standard error
and the tool terminates with exit code 2, producing no package or status
output (stdout is empty). -/
theorem c1_amended_usage_error (w : World) (argv : List String)
    (h : argv = [] ∨ ∃ t rest, argv = t :: rest ∧ t ≠ "packages" ∧ t ≠ "status") :
    ∃ e : ArgError, main w argv = .argparseExit 2 ⟨"", argErrorMsg e⟩ ∧
      argErrorMsg e ≠ "" := by
  rcases h with rfl | ⟨t, rest, rfl, ht1, ht2⟩
  · exact ⟨.missingCommand, rfl, by decide⟩
  · have hp : parse_args (t :: rest) = .error (.invalidChoice t) := by
      simp only [parse_args]
      rw [if_neg]
      rintro (h | h)
      · exact ht1 h
      · exact ht2 h
    refine ⟨.invalidChoice t, ?_, invalidChoice_msg_ne_empty t⟩
    unfold main
    rw [hp]

/-- C1 witness: the empty argument list hits the amended usage-error
behaviour. -/
theorem c1_amended_witness :
    (([] : List String) = [] ∨
      ∃ t rest, ([] : List String) = t :: rest ∧ t ≠ "packages" ∧ t ≠ "status") ∧
    ∃ e : ArgError, main ⟨none, .launchFailure⟩ [] = .argparseExit 2 ⟨"", argErrorMsg e⟩ ∧
      argErrorMsg e ≠ "" :=
  ⟨Or.inl rfl, c1_amended_usage_error ⟨none, .launchFailure⟩ [] (Or.inl rfl)⟩

/-- C2: on an existing `packages` directory, the subcommand prints exactly the
line `- <name>` for each child that is a directory — one line per such child,
no line for non-directory children — with the names in ascending
lexicographic order; and it raises nothing. -/
theorem c2_listing_sorted_dirs_only (entries : List FSEntry) :
    ∃ names : List String,
      list_packages (some (.dir entries)) =
        .ok (names.map (fun n => "- " ++ n)) ∧
      names.Perm ((entries.filter (fun e => e.kind == EntryKind.dir)).map FSEntry.name) ∧
      List.Sorted (· ≤ ·) names := by
  refine ⟨((entries.mergeSort entryLe).filter
      (fun e => e.kind == EntryKind.dir)).map FSEntry.name, ?_, ?_, ?_⟩
  · rw [List.map_map]
    rfl
  · exact ((List.mergeSort_perm entries entryLe).filter _).map _
  · have hs := List.sorted_mergeSort entryLe_trans entryLe_total entries
    have hs2 := hs.filter (fun e => e.kind == EntryKind.dir)
    simp only [List.Sorted, List.pairwise_map]
    exact hs2.imp fun h => of_decide_eq_true h

/-- C7: the listing is a deterministic function of the filesystem state: two
enumerations of the same set of children (any permutation; directory entry
names are distinct) produce identical output. -/
theorem c7_deterministic_output (es₁ es₂ : List FSEntry)
    (hperm : es₁.Perm es₂) (hnodup : (es₁.map FSEntry.name).Nodup) :
    list_packages (some (.dir es₁)) = list_packages (some (.dir es₂)) := by
  have key : es₁.mergeSort entryLe = es₂.mergeSort entryLe := by
    have hp : (es₁.mergeSort entryLe).Perm (es₂.mergeSort entryLe) :=
      ((List.mergeSort_perm es₁ entryLe).trans hperm).trans
        (List.mergeSort_perm es₂ entryLe).symm
    have hn₁ : ((es₁.mergeSort entryLe).map FSEntry.name).Nodup :=
      ((List.mergeSort_perm es₁ entryLe).map FSEntry.name).nodup_iff.mpr hnodup
    have hn₂ : ((es₂.mergeSort entryLe).map FSEntry.name).Nodup :=
      ((List.mergeSort_perm es₂ entryLe).map FSEntry.name).nodup_iff.mpr
        ((hperm.map FSEntry.name).nodup_iff.mp hnodup)
    have hlt : ∀ l : List FSEntry, l.Pairwise (fun a b => entryLe a b = true) →
        (l.map FSEntry.name).Nodup → l.Pairwise (fun a b => a.name < b.name) := by
      intro l hle hnd
      have hne : l.Pairwise (fun a b => a.name ≠ b.name) := List.pairwise_map.mp hnd
      exact (hle.and hne).imp fun h => lt_of_le_of_ne (of_decide_eq_true h.1) h.2
    have hs₁ := hlt _ (List.sorted_mergeSort entryLe_trans entryLe_total es₁) hn₁
    have hs₂ := hlt _ (List.sorted_mergeSort entryLe_trans entryLe_total es₂) hn₂
    haveI : IsAntisymm FSEntry (fun a b => a.name < b.name) :=
      ⟨fun _ _ h₁ h₂ => absurd (h₁.trans h₂) (lt_irrefl _)⟩
    exact List.eq_of_perm_of_sorted hp hs₁ hs₂
  simp only [list_packages, key]

/-- C7 witness: two enumeration orders of the same two children give the same
listing. -/
theorem c7_witness :
    (([⟨"b", .dir⟩, ⟨"a", .file⟩] : List FSEntry).Perm [⟨"a", .file⟩, ⟨"b", .dir⟩]) ∧
    (([⟨"b", .dir⟩, ⟨"a", .file⟩] : List FSEntry).map FSEntry.name).Nodup ∧
    list_packages (some (.dir [⟨"b", .dir⟩, ⟨"a", .file⟩])) =
      list_packages (some (.dir [⟨"a", .file⟩, ⟨"b", .dir⟩])) :=
  ⟨by decide, by decide,
    c7_deterministic_output _ _ (by decide) (by decide)⟩

/-- C10: every argument list the parser accepts yields the command `packages`
or `status`; consequently the fallback help branch of `main` is dead and any
normal return of `main` returns 0. -/
theorem c10_dispatcher_closed (argv : List String) (c : String) (w : World)
    (h : parse_args argv = .ok c) :
    (c = "packages" ∨ c = "status") ∧
    ∀ code out, main w argv = .exits code out → code = 0 := by
  have hok : ∀ (a : List String) (d : String), parse_args a = .ok d →
      d = "packages" ∨ d = "status" := by
    intro a d hd
    rcases a with _ | ⟨t, rest⟩
    · exact Except.noConfusion hd
    · simp only [parse_args] at hd
      by_cases h1 : t = "packages" ∨ t = "status"
      · rw [if_pos h1] at hd
        by_cases h2 : rest = []
        · rw [if_pos h2] at hd
          injection hd with h3
          subst h3
          exact h1
        · rw [if_neg h2] at hd
          exact Except.noConfusion hd
      · rw [if_neg h1] at hd
        exact Except.noConfusion hd
  refine ⟨hok argv c h, ?_⟩
  intro code out hm
  have hmain : main w argv =
      (if c = "packages" then
        match list_packages w.packagesNode with
        | .error e => .raises e ⟨"", ""⟩
        | .ok lines => .exits 0 ⟨linesOut lines, ""⟩
      else if c = "status" then
        match w.git with
        | .launchFailure => .raises .fileNotFoundError ⟨"", ""⟩
        | .runs code2 out2 err2 =>
          if code2 = 0 then .exits 0 ⟨out2, err2⟩
          else .raises (.calledProcessError code2) ⟨out2, err2⟩
      else .exits 1 ⟨helpText, ""⟩) := by
    unfold main
    rw [h]
  rw [hmain] at hm
  rcases hok argv c h with rfl | rfl
  · rw [if_pos rfl] at hm
    cases hlp : list_packages w.packagesNode with
    | error e =>
        rw [hlp] at hm
        exact Outcome.noConfusion hm
    | ok lines =>
        rw [hlp] at hm
        injection hm with h4 h5
        exact h4.symm
  · rw [if_neg (by decide), if_pos rfl] at hm
    cases hg : w.git with
    | launchFailure =>
        rw [hg] at hm
        exact Outcome.noConfusion hm
    | runs n o e =>
        rw [hg] at hm
        have hm' : (if n = 0 then Outcome.exits 0 ⟨o, e⟩
            else Outcome.raises (.calledProcessError n) ⟨o, e⟩) =
            Outcome.exits code out := hm
        by_cases hn : n = 0
        · rw [if_pos hn] at hm'
          injection hm' with h4 h5
          exact h4.symm
        · rw [if_neg hn] at hm'
          exact Outcome.noConfusion hm'

/-- C10 witness: the accepted list `["packages"]` parses to a known command
and the dispatched action returns 0. -/
theorem c10_witness :
    parse_args ["packages"] = .ok "packages" ∧
    (("packages" = "packages" ∨ "packages" = "status") ∧
      ∀ code out, main ⟨none, .runs 0 "" ""⟩ ["packages"] = .exits code out →
        code = 0) :=
  ⟨rfl, c10_dispatcher_closed ["packages"] "packages" ⟨none, .runs 0 "" ""⟩ rfl⟩

/-- C8: `list_packages` performs no mutating filesystem operation on any
input: its trace consists of `exists()`, `iterdir()` and `is_dir()` probes
only, and its only other effect is console output. -/
theorem c8_no_filesystem_writes (pkgs : Option FSNode) :
    FSOp.write ∉ list_packages_fsTrace pkgs := by
  rcases pkgs with _ | (entries | _)
  · decide
  · simp [list_packages_fsTrace]
  · decide

end Cli
